import Mathlib

/-!
Verification of the NATS schema-registry gatekeeper (`schema_registry.go`).

The Go source is shallowly embedded: pure functions become Lean functions,
the NATS KV store and the in-memory schema cache become explicit state that
handlers thread through, and the external collaborators (JSON codec,
jsonschema validator, message transport) become abstract parameters or
small inductive types capturing exactly the observable behaviour the code
depends on.
-/

set_option autoImplicit false

namespace SchemaReg

/-! ## Data model

`type Schema struct` from `schema_registry.go`.  `Revision uint64` is
modelled as `Nat`: it is assigned by the backing store (a stream sequence
number) and no arithmetic overflowing 64 bits occurs in the program. -/

structure Schema where
  name : String
  subject : String
  revision : Nat
  type : String
  body : String
deriving DecidableEq, Repr

/-! ## Subject matching (`SubjectsMatch`)

`strings.Split(s, ".")` is embedded as a structural recursion over the
string's characters so that concrete instances reduce in the kernel. -/

/-- Model of Go `strings.Split` with a one-character separator `'.'`,
on the character list of the string: `[] ↦ [""]`, and each `'.'` starts a
new token. -/
def splitTokens : List Char → List (List Char)
  | [] => [[]]
  | c :: cs =>
    if c = '.' then [] :: splitTokens cs
    else
      match splitTokens cs with
      | [] => [[c]]
      | t :: ts => (c :: t) :: ts

/-- Go `strings.Split(s, ".")` as used by the source. -/
def splitDot (s : String) : List String := (splitTokens s.data).map String.mk

/-- Go `strings.Join(parts, ".")` as used by the source. -/
def joinDot : List String → String
  | [] => ""
  | [t] => t
  | t :: rest => t ++ "." ++ joinDot rest

/-- The `for i, wpart := range wparts` loop of `SubjectsMatch`: the first
argument is the remaining literal tokens (`lparts[i:]`), the second the
remaining pattern tokens (`wparts[i:]`).  The Go loop checks
`len(lparts) <= i` before looking at `wpart`, so an exhausted literal
returns `false` even when the pattern token is the catch-all. -/
def matchParts : List String → List String → Bool
  | _, [] => true
  | [], _ :: _ => false
  | lpart :: lrest, wpart :: wrest =>
    if wpart = "*" then matchParts lrest wrest
    else if wpart = ">" then true
    else if lpart = wpart then matchParts lrest wrest
    else false

/-- Embedding of `func SubjectsMatch(literal string, wildcard string) bool`. -/
def SubjectsMatch (literal : String) (wildcard : String) : Bool :=
  if literal = wildcard then true
  else matchParts (splitDot literal) (splitDot wildcard)

/-- Token-level matching rule of the claims: a pattern token is the
single-token wildcard or equals the literal token at the same position. -/
def tokenMatches (lpart wpart : String) : Prop := wpart = "*" ∨ lpart = wpart

/-- Token-level matching rule restricted to pattern tokens that are not the
multi-token wildcard, so that the scan is guaranteed to reach the token
after the matched prefix. -/
def tokenStep (lpart wpart : String) : Prop :=
  wpart = "*" ∨ (wpart ≠ ">" ∧ lpart = wpart)

/-! ## Theorems about the subject matcher -/

/-- Claim C7: the matcher's basic behaviour — exact string equality is a
fast-path match for every string; the five concrete examples from the
spec and the test file hold; a literal exhausted before the pattern is
never a match; a `*` pattern token consumes any one literal token; and a
pattern token that is neither wildcard consumes the literal token exactly
when they are equal (case-sensitively), failing otherwise. -/
theorem subjectsMatch_basic :
    (∀ s : String, SubjectsMatch s s = true) ∧
    SubjectsMatch "foo.bar" "foo.bar" = true ∧
    SubjectsMatch "foo.bar" "foo.*" = true ∧
    SubjectsMatch "foo.bar" "foo.>" = true ∧
    SubjectsMatch "foo.bar" ">" = true ∧
    SubjectsMatch "foo.bar" "bar.>" = false ∧
    (∀ (w : String) (wrest : List String), matchParts [] (w :: wrest) = false) ∧
    (∀ (l : String) (lrest wrest : List String),
      matchParts (l :: lrest) ("*" :: wrest) = matchParts lrest wrest) ∧
    (∀ (l : String) (lrest : List String) (w : String) (wrest : List String),
      w ≠ "*" → w ≠ ">" →
      matchParts (l :: lrest) (w :: wrest) =
        if l = w then matchParts lrest wrest else false) := by
  refine ⟨fun s => by simp [SubjectsMatch], by decide, by decide, by decide,
    by decide, by decide, fun w wrest => rfl, fun l lrest wrest => rfl,
    fun l lrest w wrest h1 h2 => ?_⟩
  simp [matchParts, h1, h2]

/-- Witness for `subjectsMatch_basic`: its hypotheses are satisfiable, at
the non-wildcard pattern token `"y"` against literal token `"x"`. -/
theorem subjectsMatch_basic_witness :
    matchParts ["x"] ["y"] =
      if ("x" : String) = "y" then matchParts [] [] else false :=
  subjectsMatch_basic.2.2.2.2.2.2.2.2 "x" [] "y" []
    (by decide) (by decide)

/-- Claim C1, evaluated at the failing input: the Go loop returns `true`
as soon as the pattern tokens are exhausted, even though the literal
still has an unmatched trailing token and the pattern contains no
multi-token wildcard.  The spec says such a pair is *not* a match. -/
theorem subjectsMatch_trailing_tokens :
    SubjectsMatch "foo.bar.baz" "foo.bar" = true ∧
    SubjectsMatch "foo.bar.baz" "foo.*" = true := by
  exact ⟨by decide, by decide⟩

/-- Claim C3, counterexample: the claim asserts that a matched prefix
followed by the multi-token wildcard yields `true` even when the literal
has exactly as many tokens as the matched prefix, but the Go loop checks
literal exhaustion before looking at the pattern token, so
`SubjectsMatch("foo", "foo.>")` is `false`. -/
theorem subjectsMatch_gt_counterexample :
    SubjectsMatch "foo" "foo.>" = false := by decide

/-- Claim C3 (amended): `SubjectsMatch` is the fast-path string equality
or the token scan; a multi-token wildcard reached after a pointwise
matched prefix yields `true` whenever at least one literal token remains
at its position; but when the literal is exhausted exactly at the
wildcard's position (and the matched prefix contains no earlier
multi-token wildcard that would have short-circuited), the scan's
literal-exhaustion check fires first and the result is `false`. -/
theorem subjectsMatch_gt_amended :
    (∀ L P : String,
      SubjectsMatch L P =
        (decide (L = P) || matchParts (splitDot L) (splitDot P))) ∧
    (∀ (ls ws : List String), List.Forall₂ tokenMatches ls ws →
      ∀ (l : String) (lrest wrest : List String),
        matchParts (ls ++ l :: lrest) (ws ++ ">" :: wrest) = true) ∧
    (∀ (ls ws : List String), List.Forall₂ tokenStep ls ws →
      ∀ wrest : List String,
        matchParts ls (ws ++ ">" :: wrest) = false) := by
  refine ⟨fun L P => ?_, fun ls ws h => ?_, fun ls ws h => ?_⟩
  · by_cases hLP : L = P <;> simp [SubjectsMatch, hLP]
  · induction h with
    | nil => intro l lrest wrest; rfl
    | cons hab htail ih =>
      rename_i a b ls' ws'
      intro l lrest wrest
      rcases hab with hb | hab
      · subst hb
        simpa [matchParts] using ih l lrest wrest
      · subst hab
        by_cases hstar : a = "*"
        · subst hstar
          simpa [matchParts] using ih l lrest wrest
        · by_cases hgt : a = ">"
          · simp [hgt, matchParts]
          · simpa [matchParts, hstar, hgt] using ih l lrest wrest
  · induction h with
    | nil => intro wrest; rfl
    | cons hab htail ih =>
      rename_i a b ls' ws'
      intro wrest
      rcases hab with hb | ⟨hbgt, hab⟩
      · subst hb
        simpa [matchParts] using ih wrest
      · subst hab
        by_cases hstar : a = "*"
        · subst hstar
          simpa [matchParts] using ih wrest
        · simpa [matchParts, hstar, hbgt] using ih wrest

/-- Witness for `subjectsMatch_gt_amended`: both token-scan conjuncts are
exercised at the matched prefix `["foo"]` against pattern prefix
`["foo"]`. -/
theorem subjectsMatch_gt_amended_witness :
    matchParts ["foo", "bar"] ["foo", ">"] = true ∧
    matchParts ["foo"] ["foo", ">"] = false :=
  ⟨subjectsMatch_gt_amended.2.1 ["foo"] ["foo"]
      (List.Forall₂.cons (Or.inr rfl) List.Forall₂.nil) "bar" [] [],
    subjectsMatch_gt_amended.2.2 ["foo"] ["foo"]
      (List.Forall₂.cons (Or.inr ⟨by decide, rfl⟩) List.Forall₂.nil) []⟩

/-! ## External collaborators: JSON codec and byte payloads

Request bodies, stored KV values and change-feed values are byte strings.
Only two facts about them are used by the program: whether
`json.Unmarshal` decodes them into a `Schema`, and that `json.Marshal`
of a `Schema` produces bytes that decode back to that `Schema`.  A
payload is therefore either the encoding of a `Schema` or some other
bytes (identified by a tag, e.g. the empty value of a KV delete
tombstone) on which decoding fails with that tag as the error text. -/

inductive Payload where
  /-- Bytes produced by `json.Marshal` of the given `Schema`. -/
  | enc (s : Schema)
  /-- Bytes that do not decode as a `Schema`; `tag` stands for the bytes
  and is used as the decode error text. -/
  | raw (tag : String)
deriving DecidableEq, Repr

/-- Go `json.Unmarshal(data, &schema)` as used by the source. -/
def unmarshalSchema : Payload → Except String Schema
  | .enc s => .ok s
  | .raw tag => .error tag

/-- Go `json.Marshal(schema)` as used by the source.  For the `Schema` struct
(strings and an unsigned integer) marshalling cannot fail, so the Go
error branch after `json.Marshal` is unreachable and is not modelled. -/
def marshalSchema (s : Schema) : Payload := .enc s

/-! ## Association lists

Both the NATS KV bucket (key → latest value) and the in-memory
`map[string]Schema` cache are modelled as association lists without
duplicate keys: lookup takes the first binding, insert replaces the
binding in place or appends a fresh one — the observable semantics of a
Go map / KV bucket. -/

/-- First-binding lookup: Go `m[k]` / `kv.Get(k)`. -/
def assocLookup {α : Type} : List (String × α) → String → Option α
  | [], _ => none
  | e :: rest, k => if e.1 = k then some e.2 else assocLookup rest k

/-- Replace-or-append insert: Go `m[k] = v` / `kv.Put(k, v)`. -/
def assocInsert {α : Type} : List (String × α) → String → α → List (String × α)
  | [], k, v => [(k, v)]
  | e :: rest, k, v =>
    if e.1 = k then (k, v) :: rest else e :: assocInsert rest k v

/-- Remove the binding: the effect of `kv.Delete(k)` on the latest
value of key `k`. -/
def assocErase {α : Type} : List (String × α) → String → List (String × α)
  | [], _ => []
  | e :: rest, k =>
    if e.1 = k then assocErase rest k else e :: assocErase rest k

theorem assocLookup_insert_self {α : Type} (l : List (String × α))
    (k : String) (v : α) : assocLookup (assocInsert l k v) k = some v := by
  induction l with
  | nil => simp [assocInsert, assocLookup]
  | cons e rest ih =>
    by_cases h : e.1 = k
    · simp [assocInsert, assocLookup, h]
    · simp [assocInsert, assocLookup, h, ih]

theorem assocLookup_insert_other {α : Type} (l : List (String × α))
    (k k' : String) (v : α) (h : k' ≠ k) :
    assocLookup (assocInsert l k v) k' = assocLookup l k' := by
  induction l with
  | nil => simp [assocInsert, assocLookup, Ne.symm h]
  | cons e rest ih =>
    by_cases he : e.1 = k
    · subst he
      simp [assocInsert, assocLookup, Ne.symm h]
    · simp [assocInsert, assocLookup, he, ih]

theorem assocLookup_insert_isSome {α : Type} (l : List (String × α))
    (k k' : String) (v : α) (h : (assocLookup l k').isSome) :
    (assocLookup (assocInsert l k v) k').isSome := by
  by_cases hk : k' = k
  · subst hk; simp [assocLookup_insert_self]
  · rw [assocLookup_insert_other l k k' v hk]; exact h

theorem assocLookup_erase_self {α : Type} (l : List (String × α))
    (k : String) : assocLookup (assocErase l k) k = none := by
  induction l with
  | nil => simp [assocErase, assocLookup]
  | cons e rest ih =>
    by_cases h : e.1 = k
    · simp [assocErase, h, ih]
    · simp [assocErase, assocLookup, h, ih]

theorem assocLookup_erase_other {α : Type} (l : List (String × α))
    (k k' : String) (h : k' ≠ k) :
    assocLookup (assocErase l k) k' = assocLookup l k' := by
  induction l with
  | nil => simp [assocErase]
  | cons e rest ih =>
    by_cases he : e.1 = k
    · subst he
      simp [assocErase, assocLookup, Ne.symm h, ih]
    · simp [assocErase, assocLookup, he, ih]

/-! ## The NATS KV bucket

A bucket holds, per key, the latest value, plus the stream's last
assigned revision (NATS assigns a fresh, strictly larger sequence number
to every write).  Operations can also fail for external reasons
(connectivity, permissions, ...); that nondeterminism is an explicit
`netErr` argument: `some e` means the call failed with error text `e`
before reaching the bucket. -/

structure KVStore where
  entries : List (String × Payload)
  lastRev : Nat
deriving DecidableEq, Repr

/-- Error text of `nats.ErrKeyExists`, returned by `kv.Create` on an
existing key. -/
def keyExistsMsg : String := "nats: key exists"

/-- NATS `kv.Create(key, value)`: create-only write, `Conflict` when the key
already holds a value. -/
def kvCreate (kv : KVStore) (key : String) (value : Payload)
    (netErr : Option String) : Except String (Nat × KVStore) :=
  match netErr with
  | some e => .error e
  | none =>
    if (assocLookup kv.entries key).isSome then .error keyExistsMsg
    else
      let rev := kv.lastRev + 1
      .ok (rev, { entries := assocInsert kv.entries key value, lastRev := rev })

/-- NATS `kv.Put(key, value)`: unconditional create-or-replace write. -/
def kvPut (kv : KVStore) (key : String) (value : Payload)
    (netErr : Option String) : Except String (Nat × KVStore) :=
  match netErr with
  | some e => .error e
  | none =>
    let rev := kv.lastRev + 1
    .ok (rev, { entries := assocInsert kv.entries key value, lastRev := rev })

/-- NATS `kv.Delete(key)`: removes the latest value of the key. -/
def kvDelete (kv : KVStore) (key : String) (netErr : Option String) :
    Except String KVStore :=
  match netErr with
  | some e => .error e
  | none => .ok { kv with entries := assocErase kv.entries key }

/-! ## Registry state, requests and responses -/

/-- Embedding of `type SchemaRegistry struct`: the KV bucket and the in-memory
schema cache (`schemas map[string]Schema`).  The external NATS
connection carries no state relevant to the claims. -/
structure Registry where
  kv : KVStore
  schemas : List (String × Schema)
deriving DecidableEq, Repr

/-- A `micro.Request`: its subject and its body bytes. -/
structure Request where
  subject : String
  data : Payload
deriving DecidableEq, Repr

/-- The response a handler produces on a `micro.Request`:
`r.Error(code, message, nil)`, `r.RespondJSON(schema)` or
`r.Respond(nil)`. -/
inductive Response where
  | err (code : String) (message : String)
  | json (s : Schema)
  | empty
deriving DecidableEq, Repr

/-- Go `parts := strings.Split(subject, "."); parts[len(parts)-1]` — the
final addressing token.  `strings.Split` never returns an empty slice,
so the default of `getLastD` is unreachable. -/
def lastToken (subject : String) : String := (splitDot subject).getLastD ""

/-! ## Registration service handlers -/

/-- Embedding of `func (reg *SchemaRegistry) RegisterSchema(r micro.Request)`.
Decode the body, overwrite the name from the final subject token,
marshal, create-only write; `400` on decode failure, `500` on any
`kv.Create` error, otherwise respond with the schema carrying the
store-assigned revision. -/
def RegisterSchema (reg : Registry) (r : Request) (netErr : Option String) :
    Response × Registry :=
  match unmarshalSchema r.data with
  | .error e => (.err "400" e, reg)
  | .ok schema0 =>
    let schema1 := { schema0 with name := lastToken r.subject }
    let data := marshalSchema schema1
    match kvCreate reg.kv schema1.name data netErr with
    | .error e => (.err "500" e, reg)
    | .ok (rev, kv) =>
      (.json { schema1 with revision := rev }, { reg with kv := kv })

/-- Embedding of `func (reg *SchemaRegistry) UpdateSchema(r micro.Request)`: same
decode/serialize path as register but with an unconditional `kv.Put`. -/
def UpdateSchema (reg : Registry) (r : Request) (netErr : Option String) :
    Response × Registry :=
  match unmarshalSchema r.data with
  | .error e => (.err "400" e, reg)
  | .ok schema0 =>
    let schema1 := { schema0 with name := lastToken r.subject }
    let data := marshalSchema schema1
    match kvPut reg.kv schema1.name data netErr with
    | .error e => (.err "500" e, reg)
    | .ok (rev, kv) =>
      (.json { schema1 with revision := rev }, { reg with kv := kv })

/-- Embedding of `func (reg *SchemaRegistry) UnregisterSchema(r micro.Request)`:
delete the entry for the final subject token from the KV bucket; `500`
on a storage error, empty response on success.  The in-memory cache
`reg.schemas` is not touched. -/
def UnregisterSchema (reg : Registry) (r : Request) (netErr : Option String) :
    Response × Registry :=
  let name := lastToken r.subject
  match kvDelete reg.kv name netErr with
  | .error e => (.err "500" e, reg)
  | .ok kv => (.empty, { reg with kv := kv })

/-- Embedding of `func (reg *SchemaRegistry) GetSchema(r micro.Request)`: look the
final subject token up in the in-memory cache (not the KV bucket). -/
def GetSchema (reg : Registry) (r : Request) : Response :=
  let name := lastToken r.subject
  match assocLookup reg.schemas name with
  | none => .err "404" "Not found"
  | some schema => .json schema

/-! ## The change-feed consumption loop (`Watch`)

The watcher channel delivers `nats.KeyValueEntry` values; a `nil` entry
marks the end of the initial snapshot replay.  An entry carries the key,
the value bytes and the store-assigned revision (a KV delete is
delivered as an entry whose value is empty bytes, which fail to decode
as a `Schema`). -/

structure KVEntry where
  key : String
  value : Payload
  revision : Nat
deriving DecidableEq, Repr

/-- One iteration of the `for`/`select` loop in `Watch` on a delivered
update (`none` is the `entry == nil` snapshot sentinel, which only
logs).  A payload that fails to decode is logged and skipped.  On
success the decoded record's revision is overwritten with the entry's
revision and the cache binding for the *decoded* name is replaced. -/
def watchStep (schemas : List (String × Schema)) (entry : Option KVEntry) :
    List (String × Schema) :=
  match entry with
  | none => schemas
  | some e =>
    match unmarshalSchema e.value with
    | .error _ => schemas
    | .ok schema0 =>
      let schema1 := { schema0 with revision := e.revision }
      assocInsert schemas schema1.name schema1

/-- The whole consumption loop over a finite prefix of the update
channel, starting from the given cache contents. -/
def watchRun (schemas : List (String × Schema))
    (events : List (Option KVEntry)) : List (String × Schema) :=
  List.foldl watchStep schemas events

/-! ## Lock discipline

For the concurrency claim the handlers are abstracted to their sequence
of operations on the shared map `reg.schemas` and on `reg.schemasMu`, in
program order as written in the source. -/

inductive SyncOp where
  /-- models `schemasMu.RLock()` -/
  | rlock
  /-- models `schemasMu.RUnlock()` (incl. by `defer`) -/
  | runlock
  /-- models `schemasMu.Lock()` -/
  | wlock
  /-- models `schemasMu.Unlock()` -/
  | wunlock
  /-- a read of one binding of `reg.schemas` -/
  | mapRead
  /-- a full iteration over `reg.schemas` -/
  | mapIter
  /-- a write of one binding of `reg.schemas` -/
  | mapWrite
deriving DecidableEq, Repr

/-- Trace of the `GetSchema` body: `schema, ok := reg.schemas[name]` with no mutex
operation anywhere in the handler. -/
def getSchemaOps : List SyncOp := [.mapRead]

/-- Trace of the `ValidatePayload` body: `schemasMu.RLock()`, `defer RUnlock()`, and
the `for _, schema := range reg.schemas` iteration in between. -/
def validatePayloadOps : List SyncOp := [.rlock, .mapIter, .runlock]

/-- One `Watch` event application: `schemasMu.Lock()`,
`reg.schemas[schema.Name] = schema`, `schemasMu.Unlock()`. -/
def watchEventOps : List SyncOp := [.wlock, .mapWrite, .wunlock]

/-- Whether an operation touches the shared map. -/
def isMapAccess : SyncOp → Bool
  | .mapRead | .mapIter | .mapWrite => true
  | _ => false

/-- Checks that every access to the shared map in the trace happens while
at least one `schemasMu` lock (read or write) is held, starting from the
given held-lock depth. -/
def accessesLocked : List SyncOp → Nat → Bool
  | [], _ => true
  | op :: rest, depth =>
    match op with
    | .rlock | .wlock => accessesLocked rest (depth + 1)
    | .runlock | .wunlock => accessesLocked rest (depth - 1)
    | _ => (!isMapAccess op || decide (0 < depth)) && accessesLocked rest depth

/-! ## The validation dispatcher (`ValidatePayload`)

The jsonschema capability (`gojsonschema.Validate`) is an abstract
parameter `gjs : schemaBody → payload → outcome`; the transport's
`nc.PublishMsg` may fail externally, which is the abstract parameter
`pubErr : message → Option errorText`. -/

/-- Outcome of `gojsonschema.Validate(schemaBody, dataBody)`: an error
from the validator itself, an invalid result with the error
descriptions (`result.Errors()`), or a valid result. -/
inductive GJSOutcome where
  | ok
  | invalid (descriptions : List String)
  | fail (msg : String)
deriving DecidableEq, Repr

/-- Embedding of `func (reg *SchemaRegistry) validate(data []byte, schema Schema) error`:
`none` when the payload is valid, otherwise the error text sent back to
the caller — the validator's own error, or
`invalid payload: ` followed by the descriptions joined with `, `. -/
def validate (gjs : String → Payload → GJSOutcome) (data : Payload)
    (schema : Schema) : Option String :=
  match gjs schema.body data with
  | .fail m => some m
  | .invalid descs =>
    some ("invalid payload: " ++ String.intercalate ", " descs)
  | .ok => none

/-- NATS headers: `map[string][]string`; `Header.Set(k, v)` replaces the
binding with the one-element list `[v]`. -/
def hSet (h : List (String × List String)) (k v : String) :
    List (String × List String) :=
  assocInsert h k [v]

/-- An inbound `*nats.Msg`: subject, reply subject, payload bytes and
(possibly nil) headers. -/
structure Msg where
  subject : String
  reply : String
  data : Payload
  header : Option (List (String × List String))
deriving DecidableEq, Repr

/-- A message built for `nc.PublishMsg`. -/
structure OutMsg where
  subject : String
  reply : String
  data : Payload
  header : List (String × List String)
deriving DecidableEq, Repr

/-- What `ValidatePayload` does with a message: reply with text via
`m.Respond` without publishing; publish the forwarded message (no direct
reply, the original reply subject travels with it); or attempt the
publish, have it fail, and reply with the publish error text. -/
inductive VPOutcome where
  | replied (text : String)
  | published (out : OutMsg)
  | publishFailed (out : OutMsg) (text : String)
deriving DecidableEq, Repr

/-- Go `strings.Join(parts[2:], ".")` on `strings.Split(m.Subject, ".")` —
the governed subject, i.e. the inbound subject with the two-token
routing prefix dropped.  (The inbound subjects are delivered by a
subscription on a three-plus-token pattern, so at least two tokens are
always present.) -/
def governed (subject : String) : String :=
  joinDot ((splitDot subject).drop 2)

/-- Go `fmt.Sprintf("could not find schema for subject %q", subject)`;
`%q` wraps a quote-free subject in double quotes. -/
def noSchemaMsg (subject : String) : String :=
  "could not find schema for subject \"" ++ subject ++ "\""

/-- The forwarded message: governed subject, original reply and data,
original headers (empty when nil) with the five audit headers set. -/
def auditMsg (subject : String) (m : Msg) (schema : Schema) : OutMsg :=
  let header0 := match m.header with
    | none => []
    | some h => h
  let header1 := hSet header0 "Schema-Name" schema.name
  let header2 := hSet header1 "Schema-Revision" (toString schema.revision)
  let header3 := hSet header2 "Schema-Subject" schema.subject
  let header4 := hSet header3 "Schema-Type" schema.type
  let header5 := hSet header4 "Schema-Validated" "true"
  { subject := subject, reply := m.reply, data := m.data, header := header5 }

/-- The `for _, schema := range reg.schemas` loop of `ValidatePayload`,
over the cache's values in iteration order (Go map iteration order is
unspecified, so the claims are proved for every order). -/
def vpScan (gjs : String → Payload → GJSOutcome)
    (pubErr : OutMsg → Option String) (subject : String) (m : Msg) :
    List Schema → VPOutcome
  | [] => .replied (noSchemaMsg subject)
  | schema :: rest =>
    if !SubjectsMatch subject schema.subject then
      vpScan gjs pubErr subject m rest
    else
      match validate gjs m.data schema with
      | some e => .replied e
      | none =>
        let out := auditMsg subject m schema
        match pubErr out with
        | some perr => .publishFailed out perr
        | none => .published out

/-- Embedding of `func (reg *SchemaRegistry) ValidatePayload(m *nats.Msg)`. -/
def ValidatePayload (gjs : String → Payload → GJSOutcome)
    (pubErr : OutMsg → Option String) (schemas : List Schema) (m : Msg) :
    VPOutcome :=
  vpScan gjs pubErr (governed m.subject) m schemas

/-! ## Sample values used by the witnesses -/

def vSchema : Schema :=
  { name := "my_cool_schema", subject := "numbers.>", revision := 1,
    type := "jsonschema", body := "num" }

def wSchema : Schema :=
  { name := "other_name", subject := "x.>", revision := 3,
    type := "jsonschema", body := "w" }

def vMsg : Msg :=
  { subject := "$SCHEMA.VALIDATE.numbers.foobar", reply := "_INBOX.1",
    data := .raw "1", header := none }

def emptyReg : Registry := { kv := { entries := [], lastRev := 0 }, schemas := [] }

/-! ## Registration service theorems -/

/-- Claim C2: registering a name that already exists in the backing
store fails with the key-exists conflict error, which differs from every
generic storage failure's error text and from the `400` decode-failure
response; an undecodable body fails with `400` and the decode error; and
on success the response carries the schema with the revision assigned by
the store's create. -/
theorem registerSchema_spec :
    (∀ (reg : Registry) (r : Request) (e : String),
      unmarshalSchema r.data = .error e →
      RegisterSchema reg r none = (.err "400" e, reg)) ∧
    (∀ (reg : Registry) (r : Request) (s : Schema),
      unmarshalSchema r.data = .ok s →
      (assocLookup reg.kv.entries (lastToken r.subject)).isSome = true →
      RegisterSchema reg r none = (.err "500" keyExistsMsg, reg)) ∧
    (∀ (reg : Registry) (r : Request) (s : Schema) (e : String),
      unmarshalSchema r.data = .ok s →
      RegisterSchema reg r (some e) = (.err "500" e, reg)) ∧
    (∀ e : String, e ≠ keyExistsMsg →
      (Response.err "500" keyExistsMsg) ≠ .err "500" e) ∧
    (∀ e e' : String, (Response.err "500" e) ≠ .err "400" e') ∧
    (∀ (reg : Registry) (r : Request) (s : Schema),
      unmarshalSchema r.data = .ok s →
      assocLookup reg.kv.entries (lastToken r.subject) = none →
      RegisterSchema reg r none =
        (.json { s with name := lastToken r.subject,
                        revision := reg.kv.lastRev + 1 },
         { reg with kv :=
            { entries := assocInsert reg.kv.entries (lastToken r.subject)
                (.enc { s with name := lastToken r.subject }),
              lastRev := reg.kv.lastRev + 1 } })) := by
  refine ⟨fun reg r e hdec => ?_, fun reg r s hdec hlook => ?_,
    fun reg r s e hdec => ?_, fun e he hcontra => ?_, fun e e' hcontra => ?_,
    fun reg r s hdec hlook => ?_⟩
  · simp [RegisterSchema, hdec]
  · simp [RegisterSchema, hdec, kvCreate, hlook]
  · simp [RegisterSchema, hdec, kvCreate]
  · cases hcontra
    exact he rfl
  · injection hcontra with hcode hmsg
    exact absurd hcode (by decide)
  · simp [RegisterSchema, hdec, kvCreate, hlook, marshalSchema]

/-- Witness for `registerSchema_spec`: decoding, conflict check and
create all succeed on a fresh store, and the assigned revision is 1. -/
theorem registerSchema_spec_witness :
    RegisterSchema emptyReg
      { subject := "$SCHEMA.REGISTER.my_cool_schema", data := .enc vSchema }
      none =
      (.json { vSchema with name := "my_cool_schema", revision := 1 },
        { emptyReg with kv :=
          { entries := [("my_cool_schema",
              .enc { vSchema with name := "my_cool_schema" })],
            lastRev := 1 } }) := by
  have h := registerSchema_spec.2.2.2.2.2 emptyReg
    { subject := "$SCHEMA.REGISTER.my_cool_schema", data := .enc vSchema }
    vSchema rfl rfl
  simpa [emptyReg, lastToken, assocInsert] using h

/-! ## Change-feed loop theorems -/

/-- Claim C6: a decodable change-feed event replaces the cache binding
for the decoded name with the decoded record whose revision field is
overwritten by the event's revision (whatever revision the payload
embedded); an undecodable event leaves the cache unchanged and the loop
continues with the remaining events; the `nil` end-of-snapshot sentinel
also leaves the cache unchanged and the loop running. -/
theorem watch_event_handling :
    (∀ (c : List (String × Schema)) (e : KVEntry) (s : Schema),
      unmarshalSchema e.value = .ok s →
      watchStep c (some e) =
        assocInsert c s.name { s with revision := e.revision }) ∧
    (∀ (c : List (String × Schema)) (e : KVEntry) (s : Schema),
      unmarshalSchema e.value = .ok s →
      assocLookup (watchStep c (some e)) s.name =
        some { s with revision := e.revision }) ∧
    (∀ (c : List (String × Schema)) (e : KVEntry) (err : String),
      unmarshalSchema e.value = .error err →
      watchStep c (some e) = c) ∧
    (∀ (c : List (String × Schema)) (e : KVEntry) (err : String)
        (rest : List (Option KVEntry)),
      unmarshalSchema e.value = .error err →
      watchRun c (some e :: rest) = watchRun c rest) ∧
    (∀ (c : List (String × Schema)) (rest : List (Option KVEntry)),
      watchRun c (none :: rest) = watchRun c rest) := by
  refine ⟨fun c e s hdec => ?_, fun c e s hdec => ?_, fun c e err hdec => ?_,
    fun c e err rest hdec => ?_, fun c rest => ?_⟩
  · simp [watchStep, hdec]
  · simp [watchStep, hdec, assocLookup_insert_self]
  · simp [watchStep, hdec]
  · simp [watchRun, List.foldl, watchStep, hdec]
  · simp [watchRun, List.foldl, watchStep]

/-- Witness for `watch_event_handling`: a decodable event carrying the
sample schema under a store key, delivered with store revision 5. -/
theorem watch_event_handling_witness :
    watchStep []
        (some { key := "my_cool_schema", value := .enc vSchema, revision := 5 }) =
      assocInsert [] vSchema.name { vSchema with revision := 5 } :=
  watch_event_handling.1 []
    { key := "my_cool_schema", value := .enc vSchema, revision := 5 } vSchema rfl

/-- Claim C10: the cache binding written by the watch loop is keyed by
the decoded payload's `name` field, not by the event's store key — an
event whose payload name differs from its store key leaves the binding
under the store key untouched — while the register and update handlers
store under each key a payload whose `name` field equals that key. -/
theorem cache_key_from_payload :
    (∀ (c : List (String × Schema)) (k : String) (s : Schema) (rev : Nat),
      watchStep c (some { key := k, value := .enc s, revision := rev }) =
        assocInsert c s.name { s with revision := rev }) ∧
    (∀ (c : List (String × Schema)) (k : String) (s : Schema) (rev : Nat),
      k ≠ s.name →
      assocLookup
          (watchStep c (some { key := k, value := .enc s, revision := rev })) k =
        assocLookup c k) ∧
    (∀ (reg : Registry) (r : Request) (s : Schema),
      unmarshalSchema r.data = .ok s →
      assocLookup reg.kv.entries (lastToken r.subject) = none →
      assocLookup (RegisterSchema reg r none).2.kv.entries (lastToken r.subject) =
        some (.enc { s with name := lastToken r.subject })) ∧
    (∀ (reg : Registry) (r : Request) (s : Schema),
      unmarshalSchema r.data = .ok s →
      assocLookup (UpdateSchema reg r none).2.kv.entries (lastToken r.subject) =
        some (.enc { s with name := lastToken r.subject })) := by
  refine ⟨fun c k s rev => rfl, fun c k s rev hk => ?_,
    fun reg r s hdec hlook => ?_, fun reg r s hdec => ?_⟩
  · rw [show watchStep c (some { key := k, value := .enc s, revision := rev }) =
        assocInsert c s.name { s with revision := rev } from rfl]
    exact assocLookup_insert_other c s.name k { s with revision := rev } hk
  · simp [RegisterSchema, hdec, kvCreate, hlook, marshalSchema,
      assocLookup_insert_self]
  · simp [UpdateSchema, hdec, kvPut, marshalSchema, assocLookup_insert_self]

/-- Witness for `cache_key_from_payload`: an event whose store key
differs from the payload's name leaves the store key's binding alone. -/
theorem cache_key_from_payload_witness :
    assocLookup
        (watchStep []
          (some { key := "store_key", value := .enc wSchema, revision := 7 }))
        "store_key" =
      assocLookup [] "store_key" :=
  cache_key_from_payload.2.1 [] "store_key" wSchema 7 (by decide)

/-! ## Unregister and cache-persistence theorems -/

/-- Claim C8: unregister deletes the final-token name from the backing
store only — the in-memory cache is untouched for every outcome — and
replies empty on success and a `500` error on storage failure; the
watch loop never removes a cache binding for any event, so a binding
present before a KV delete event (delivered as an empty, undecodable
value) is still present afterwards. -/
theorem unregister_cache_persistence :
    (∀ (reg : Registry) (r : Request) (netErr : Option String),
      (UnregisterSchema reg r netErr).2.schemas = reg.schemas) ∧
    (∀ (reg : Registry) (r : Request),
      UnregisterSchema reg r none =
        (.empty, { reg with kv := { reg.kv with
            entries := assocErase reg.kv.entries (lastToken r.subject) } })) ∧
    (∀ (reg : Registry) (r : Request),
      assocLookup (UnregisterSchema reg r none).2.kv.entries
        (lastToken r.subject) = none) ∧
    (∀ (reg : Registry) (r : Request) (e : String),
      UnregisterSchema reg r (some e) = (.err "500" e, reg)) ∧
    (∀ (c : List (String × Schema)) (ev : Option KVEntry) (k : String),
      (assocLookup c k).isSome = true →
      (assocLookup (watchStep c ev) k).isSome = true) ∧
    (∀ (c : List (String × Schema)) (k : String) (rev : Nat),
      watchStep c (some { key := k, value := .raw "", revision := rev }) = c) := by
  refine ⟨fun reg r netErr => ?_, fun reg r => rfl, fun reg r => ?_,
    fun reg r e => rfl, fun c ev k h => ?_, fun c k rev => rfl⟩
  · cases netErr <;> rfl
  · exact assocLookup_erase_self reg.kv.entries (lastToken r.subject)
  · match ev with
    | none => exact h
    | some e =>
      match hdec : unmarshalSchema e.value with
      | .error err => simpa [watchStep, hdec] using h
      | .ok s =>
        simp only [watchStep, hdec]
        exact assocLookup_insert_isSome c _ k _ h

/-- Witness for `unregister_cache_persistence`: the binding for the
sample schema survives a KV delete event for its own key. -/
theorem unregister_cache_persistence_witness :
    (assocLookup
        (watchStep [("my_cool_schema", vSchema)]
          (some { key := "my_cool_schema", value := .raw "", revision := 9 }))
        "my_cool_schema").isSome = true :=
  unregister_cache_persistence.2.2.2.2.1 [("my_cool_schema", vSchema)]
    (some { key := "my_cool_schema", value := .raw "", revision := 9 })
    "my_cool_schema" rfl

/-! ## Validation dispatcher theorems -/

theorem vpScan_skip (gjs : String → Payload → GJSOutcome)
    (pubErr : OutMsg → Option String) (subject : String) (m : Msg)
    (pre rest : List Schema)
    (h : ∀ s ∈ pre, SubjectsMatch subject s.subject = false) :
    vpScan gjs pubErr subject m (pre ++ rest) =
      vpScan gjs pubErr subject m rest := by
  induction pre with
  | nil => rfl
  | cons a pre ih =>
    have ha : SubjectsMatch subject a.subject = false := h a (by simp)
    rw [List.cons_append]
    simp only [vpScan, ha]
    exact ih (fun s hs => h s (by simp [hs]))

/-- Claim C4: when no cached schema's pattern matches the governed
subject, the dispatcher replies with the plain not-found text and
publishes nothing; when the first matching schema's validation fails,
it replies with the validator's joined error text and likewise
publishes nothing and builds no forwarded message — in both cases the
outcome is a bare textual reply carrying no headers. -/
theorem validatePayload_failures :
    (∀ (gjs : String → Payload → GJSOutcome) (pubErr : OutMsg → Option String)
        (schemas : List Schema) (m : Msg),
      (∀ s ∈ schemas, SubjectsMatch (governed m.subject) s.subject = false) →
      ValidatePayload gjs pubErr schemas m =
        .replied (noSchemaMsg (governed m.subject))) ∧
    (∀ (gjs : String → Payload → GJSOutcome) (pubErr : OutMsg → Option String)
        (pre : List Schema) (schema : Schema) (rest : List Schema)
        (m : Msg) (e : String),
      (∀ s ∈ pre, SubjectsMatch (governed m.subject) s.subject = false) →
      SubjectsMatch (governed m.subject) schema.subject = true →
      validate gjs m.data schema = some e →
      ValidatePayload gjs pubErr (pre ++ schema :: rest) m = .replied e) := by
  refine ⟨fun gjs pubErr schemas m h => ?_, fun gjs pubErr pre schema rest m e
    hpre hmatch hval => ?_⟩
  · have := vpScan_skip gjs pubErr (governed m.subject) m schemas [] h
    rw [ValidatePayload, ← List.append_nil schemas, this]
    rfl
  · rw [ValidatePayload, vpScan_skip gjs pubErr (governed m.subject) m pre _ hpre]
    simp [vpScan, hmatch, hval]

/-- Witness for `validatePayload_failures`: with the sample schema in
the cache, a payload the validator rejects is answered with the joined
error text and nothing is published. -/
theorem validatePayload_failures_witness :
    ValidatePayload (fun _ _ => .invalid ["a", "b"]) (fun _ => none)
        [vSchema] vMsg =
      .replied "invalid payload: a, b" :=
  validatePayload_failures.2 (fun _ _ => .invalid ["a", "b"]) (fun _ => none)
    [] vSchema [] vMsg "invalid payload: a, b" (by simp) (by decide) rfl

/-- Claim C5: when the first matching schema validates the payload, the
dispatcher publishes the original payload and headers on the governed
subject (the inbound subject minus the two-token routing prefix) with
the original reply subject preserved, and with exactly the five audit
headers set — schema name, decimal revision, subject pattern, kind tag
and the `true` marker — every other header binding being exactly the
inbound message's. -/
theorem validatePayload_forward :
    ∀ (gjs : String → Payload → GJSOutcome) (pubErr : OutMsg → Option String)
      (pre : List Schema) (schema : Schema) (rest : List Schema) (m : Msg),
      (∀ s ∈ pre, SubjectsMatch (governed m.subject) s.subject = false) →
      SubjectsMatch (governed m.subject) schema.subject = true →
      validate gjs m.data schema = none →
      pubErr (auditMsg (governed m.subject) m schema) = none →
      ValidatePayload gjs pubErr (pre ++ schema :: rest) m =
        .published (auditMsg (governed m.subject) m schema) ∧
      (auditMsg (governed m.subject) m schema).subject = governed m.subject ∧
      (auditMsg (governed m.subject) m schema).reply = m.reply ∧
      (auditMsg (governed m.subject) m schema).data = m.data ∧
      assocLookup (auditMsg (governed m.subject) m schema).header
        "Schema-Name" = some [schema.name] ∧
      assocLookup (auditMsg (governed m.subject) m schema).header
        "Schema-Revision" = some [toString schema.revision] ∧
      assocLookup (auditMsg (governed m.subject) m schema).header
        "Schema-Subject" = some [schema.subject] ∧
      assocLookup (auditMsg (governed m.subject) m schema).header
        "Schema-Type" = some [schema.type] ∧
      assocLookup (auditMsg (governed m.subject) m schema).header
        "Schema-Validated" = some ["true"] ∧
      (∀ k : String, k ≠ "Schema-Name" → k ≠ "Schema-Revision" →
        k ≠ "Schema-Subject" → k ≠ "Schema-Type" → k ≠ "Schema-Validated" →
        assocLookup (auditMsg (governed m.subject) m schema).header k =
          assocLookup (match m.header with | none => [] | some h => h) k) := by
  intro gjs pubErr pre schema rest m hpre hmatch hval hpub
  refine ⟨?_, rfl, rfl, rfl, ?_, ?_, ?_, ?_, ?_, ?_⟩
  · rw [ValidatePayload, vpScan_skip gjs pubErr (governed m.subject) m pre _ hpre]
    simp [vpScan, hmatch, hval, hpub]
  · simp [auditMsg, hSet, assocLookup_insert_self, assocLookup_insert_other]
  · simp [auditMsg, hSet, assocLookup_insert_self, assocLookup_insert_other]
  · simp [auditMsg, hSet, assocLookup_insert_self, assocLookup_insert_other]
  · simp [auditMsg, hSet, assocLookup_insert_self, assocLookup_insert_other]
  · simp [auditMsg, hSet, assocLookup_insert_self]
  · intro k h1 h2 h3 h4 h5
    simp only [auditMsg, hSet]
    rw [assocLookup_insert_other _ _ _ _ h5, assocLookup_insert_other _ _ _ _ h4,
      assocLookup_insert_other _ _ _ _ h3, assocLookup_insert_other _ _ _ _ h2,
      assocLookup_insert_other _ _ _ _ h1]

/-- Witness for `validatePayload_forward`: the sample schema governs
`numbers.foobar`, the validator accepts, the publish succeeds, and the
forwarded message is published. -/
theorem validatePayload_forward_witness :
    ValidatePayload (fun _ _ => .ok) (fun _ => none) [vSchema] vMsg =
      .published (auditMsg (governed vMsg.subject) vMsg vSchema) :=
  (validatePayload_forward (fun _ _ => .ok) (fun _ => none) [] vSchema [] vMsg
    (by simp) (by decide) rfl rfl).1

/-! ## Lock-discipline theorem -/

/-- Claim C9, evaluated on the handlers' operation traces: the
`ValidatePayload` iteration and the `Watch` write are performed under
`schemasMu`, but the map lookup in `GetSchema` is performed with no lock
held at all, so not every read of the shared map follows the read/write
lock discipline while the watch goroutine is writing. -/
theorem lock_discipline :
    accessesLocked validatePayloadOps 0 = true ∧
    accessesLocked watchEventOps 0 = true ∧
    accessesLocked getSchemaOps 0 = false :=
  ⟨rfl, rfl, rfl⟩

end SchemaReg
